import Mathlib

/-!
# Verification of the dragon-tiger-list dashboard (`src/app.py`)

Shallow embedding of the pure logic of `src/app.py`:

* `format_number` — abbreviated rendering of large amounts (lines 17–26);
* `find_latest_data` — bounded backward date scan (lines 53–74), modelled as a
  pure function over an injected probe capability;
* `get_lhb_data` — three-fetch day-data load with its `try/except` (lines 30–50),
  modelled over injected fetch outcomes;
* the metric and ranking computations of `main` (lines 100, 103–111, 129–132, 157),
  including the `pd.to_numeric(..., errors='coerce')` coercion and
  `sort_values(by='龙虎榜净买额', ascending=False)`;
* the AI-commentary configuration check (lines 185–204, 244–261).

External effects (streamlit rendering, the network, `strftime` date formatting)
are abstracted: dates are day numbers, fetches are injected outcomes, and the
UI is ignored.  Money amounts are modelled as exact rationals.
-/

namespace Lhb

/-- Outcome of one external `akshare` fetch call: the call either raises an
exception (`error`), or returns a value that Python sees as `None` or as a
dataframe, here a list of rows (`ok`). -/
inductive Fetch (α : Type) where
  | error : Fetch α
  | ok (df : Option (List α)) : Fetch α
deriving DecidableEq

/-- One cell of the `龙虎榜净买额` (net buy amount) column as fetched: either a
numeric value or a non-numeric/unparseable one.  `pd.to_numeric(...,
errors='coerce')` maps the latter to missing (NaN). -/
inductive Cell where
  | numeric (q : ℚ) : Cell
  | nonNumeric (s : String) : Cell
deriving DecidableEq

/-- A raw disclosure-detail row (`detail_df` of `get_lhb_data`): `代码` (code),
`名称` (name), `收盘价` (close), `涨跌幅` (change), `龙虎榜净买额` (net buy,
possibly non-numeric before coercion), `上榜原因` (reason). -/
structure DRecordRaw where
  code : String
  name : String
  close : ℚ
  change : ℚ
  netBuyRaw : Cell
  reason : String
deriving DecidableEq

/-- A disclosure-detail row after `main` has overwritten the `龙虎榜净买额`
column with `pd.to_numeric(detail_df['龙虎榜净买额'], errors='coerce')`
(line 130): the net-buy field is now numeric-or-missing. -/
structure DRecord where
  code : String
  name : String
  close : ℚ
  change : ℚ
  netBuy : Option ℚ
  reason : String
deriving DecidableEq

/-- An institutional-summary row (`jg_df`): its `机构买入总额` field. -/
structure JRecord where
  jgBuy : ℚ
deriving DecidableEq

/-- A brokerage-branch row (`yyb_df`): `营业部名称` (branch name) and
`买入总金额` (buy amount). -/
structure BRecord where
  name : String
  buy : ℚ
deriving DecidableEq

/-! ## Number formatter (`format_number`, lines 17–26) -/

/-- The floor of a rational, written on its reduced numerator and denominator
so that it evaluates by kernel reduction. -/
def ratFloor (q : ℚ) : ℤ :=
  q.num.fdiv q.den

/-- Round a rational to the nearest integer, ties to even — the rounding used
when Python renders a float with `f"{x:.2f}"` (the float's exact value is a
rational; `printf`-style formatting rounds it half-to-even). -/
def roundHalfEven (q : ℚ) : ℤ :=
  let f := ratFloor q
  let r := q - (f : ℚ)
  if r < 1 / 2 then f
  else if 1 / 2 < r then f + 1
  else if f % 2 = 0 then f else f + 1

/-- Two-digit zero padding of a nonnegative integer below 100. -/
def pad2 (n : ℤ) : String :=
  if n < 10 then "0" ++ toString n else toString n

/-- Python's `f"{num:.2f}"` on an exact rational: sign, then the magnitude
rounded to two decimal places. -/
def twoDec (q : ℚ) : String :=
  let a := if q < 0 then -q else q
  let m := roundHalfEven (a * 100)
  (if q < 0 then "-" else "") ++ toString (m / 100) ++ "." ++ pad2 (m % 100)

/-- `format_number(num)` (lines 17–26): `pd.isna(num)` (absent input,
modelled as `none`) renders as `"0"`; a value `≥ 100000000` is divided by
`100000000` and suffixed `亿`; else a value `≥ 10000` is divided by `10000`
and suffixed `万`; else the raw value is rendered with two decimals. -/
def format_number : Option ℚ → String
  | none => "0"
  | some num =>
    if num ≥ 100000000 then twoDec (num / 100000000) ++ "亿"
    else if num ≥ 10000 then twoDec (num / 10000) ++ "万"
    else twoDec num

/-! ## Trading-day resolver (`find_latest_data`, lines 53–74) -/

/-- The test the scan loop applies to a probe outcome (line 69:
`if df is not None and not df.empty`); a raised exception is swallowed by the
bare `except: pass` and likewise fails the test. -/
def probeHit : Fetch DRecordRaw → Bool
  | .ok (some rows) => !rows.isEmpty
  | _ => false

/-- `find_latest_data()` (lines 53–74) over an injected probe capability:
for `i in range(10)` the candidate date `today − i` is probed; the first
candidate whose probe yields a non-`None`, non-empty dataframe is returned
at once, and after ten misses the result is the not-found value (the pair
`(None, None)` in Python, `none` here; the returned display string is a pure
rendering of the same date and is not modelled). -/
def find_latest_data (today : ℤ) (probe : ℕ → Fetch DRecordRaw) : Option ℤ :=
  ((List.range 10).find? fun i => probeHit (probe i)).map fun i => today - (i : ℤ)

/-! ## Day-data load (`get_lhb_data`, lines 30–50) -/

/-- `get_lhb_data(date_str)` (lines 30–50) over the three injected fetch
outcomes, in source order (detail, then `jg`, then `yyb`).  The whole body is
one `try:` block: if the detail fetch raises, returns `None`, or returns an
empty frame, the result is `(None, None, None)`; if a later fetch raises, the
`except` clause also returns `(None, None, None)`; otherwise the three fetched
values are returned as-is (the secondary ones unchecked). -/
def get_lhb_data (detail : Fetch DRecordRaw) (jg : Fetch JRecord) (yyb : Fetch BRecord) :
    Option (List DRecordRaw) × Option (List JRecord) × Option (List BRecord) :=
  match detail with
  | .error => (none, none, none)
  | .ok none => (none, none, none)
  | .ok (some d) =>
    if d.isEmpty then (none, none, none)
    else
      match jg with
      | .error => (none, none, none)
      | .ok j =>
        match yyb with
        | .error => (none, none, none)
        | .ok y => (some d, j, y)

/-! ## Metrics (`main`, lines 100–111) -/

/-- Line 100: `total_stocks = len(detail_df['代码'].unique())` — the number of
distinct stock codes in the disclosure set. -/
def total_stocks (l : List DRecordRaw) : ℕ :=
  ((l.map DRecordRaw.code).dedup).length

/-- Lines 103–105: `jg_buy_total` starts at `0` and becomes
`jg_df['机构买入总额'].sum()` only when `jg_df` is neither `None` nor empty. -/
def jg_buy_total (jg : Option (List JRecord)) : ℚ :=
  match jg with
  | none => 0
  | some l => if l.isEmpty then 0 else (l.map JRecord.jgBuy).sum

/-- Line 110: `yyb_df['营业部名称'].str.contains('股通')` — the pattern has no
regex metacharacters, so this is a plain substring test on the branch name. -/
def hasMarker (s : String) : Bool :=
  decide ("股通".toList <:+: s.toList)

/-- Lines 107–111: `waizi_buy_total` starts at `0` and, when `yyb_df` is
neither `None` nor empty, becomes the sum of `买入总金额` over the rows whose
`营业部名称` contains `股通`. -/
def waizi_buy_total (yyb : Option (List BRecord)) : ℚ :=
  match yyb with
  | none => 0
  | some l =>
    if l.isEmpty then 0
    else ((l.filter fun b => hasMarker b.name).map BRecord.buy).sum

/-! ## Ranking (`main`, lines 129–132 and 157) -/

/-- `pd.to_numeric(cell, errors='coerce')` on one cell: numeric values pass
through, non-numeric/unparseable ones become missing (NaN). -/
def to_numeric : Cell → Option ℚ
  | .numeric q => some q
  | .nonNumeric _ => none

/-- Line 130: overwrite the `龙虎榜净买额` column with its coerced values. -/
def coerceNetBuy (l : List DRecordRaw) : List DRecord :=
  l.map fun r => ⟨r.code, r.name, r.close, r.change, to_numeric r.netBuyRaw, r.reason⟩

/-- The ascending order on coerced net-buy keys used to state sortedness, with
missing (NaN) below every number. -/
def optLE : Option ℚ → Option ℚ → Bool
  | none, _ => true
  | some _, none => false
  | some x, some y => decide (x ≤ y)

/-- Ascending key order on coerced rows, as a decidable relation. -/
def rowLE (a b : DRecord) : Prop := optLE a.netBuy b.netBuy = true

instance : DecidableRel rowLE := fun a b => by unfold rowLE; infer_instance

instance : IsTotal DRecord rowLE := by
  constructor
  intro a b
  unfold rowLE
  cases a.netBuy with
  | none => left; rfl
  | some x =>
    cases b.netBuy with
    | none => right; rfl
    | some y =>
      rcases le_total x y with h | h
      · left; simp [optLE, h]
      · right; simp [optLE, h]

instance : IsTrans DRecord rowLE := by
  constructor
  intro a b c h1 h2
  unfold rowLE at h1 h2 ⊢
  cases ha : a.netBuy with
  | none => rfl
  | some x =>
    rw [ha] at h1
    cases hb : b.netBuy with
    | none => rw [hb] at h1; simp [optLE] at h1
    | some y =>
      rw [hb] at h1 h2
      cases hc : c.netBuy with
      | none => rw [hc] at h2; simp [optLE] at h2
      | some z =>
        rw [hc] at h2
        simp [optLE] at h1 h2 ⊢
        exact le_trans h1 h2

/-- The *stable idealization* of `detail_df.sort_values(by='龙虎榜净买额',
ascending=False)` (lines 132, 157, 212).  Pandas' `nargsort` drops the NaN
rows, reverses the remaining rows, argsorts them ascending, reverses the
result, and appends the NaN rows in original order (`na_position='last'`
default); here the ascending kernel is the stable `List.insertionSort`.
The program's actual kernel is numpy's introsort (pandas default
`kind='quicksort'`), modelled faithfully by `sort_values_desc_np` below; the
two agree on which rows appear (permutation), on the NaN tail, and on the
descending key order, and coincide outright while the introsort stays in its
insertion-sort regime (at most 16 non-NaN rows), but differ on tie order
beyond it — so this idealization backs only tie-order-independent facts, and
the tie-order question is settled against `sort_values_desc_np`. -/
def sort_values_desc (l : List DRecord) : List DRecord :=
  (List.insertionSort rowLE ((l.filter fun r => r.netBuy.isSome).reverse)).reverse ++
    (l.filter fun r => r.netBuy.isNone)

/-! ### Faithful numpy kernel

`sort_values` without a `kind=` argument uses numpy's
`argsort(kind='quicksort')`, the introsort `aquicksort_` of
`numpy/core/src/npysort/quicksort.c.src`: median-of-three quicksort
partitioning while a segment is longer than `SMALL_QUICKSORT = 15` entries,
insertion sort below that, the larger partition pushed on an explicit stack,
and a heapsort (`aheapsort_`) fallback once the partition depth exceeds
`2·⌊log₂ n⌋`.  The functions below transliterate that routine: `v` is the
read-only value array, `t` the index array being permuted, and the C loops
become fuelled recursions (every fuel budget strictly exceeds the
corresponding loop's iteration bound, so exhaustion is unreachable; array
reads out of bounds, which the C code's sentinel invariants rule out, default
to `0`). -/

/-- The key at `tosort` position `p`: `v[t[p]]`. -/
def npVal (v : Array ℚ) (t : Array ℕ) (p : ℕ) : ℚ :=
  v.getD (t.getD p 0) 0

/-- `INTP_SWAP(*i, *j)` on the index array. -/
def npSwap (t : Array ℕ) (i j : ℕ) : Array ℕ :=
  let x := t.getD i 0
  let y := t.getD j 0
  (t.setD i y).setD j x

/-- `do ++pi; while (LT(v[*pi], vp));` — advance `pi` past keys below the
pivot (the pivot copy at the segment's right edge stops the scan). -/
def npScanUp (v : Array ℚ) (t : Array ℕ) (vp : ℚ) : ℕ → ℕ → ℕ
  | 0, pi => pi + 1
  | fuel + 1, pi =>
    if npVal v t (pi + 1) < vp then npScanUp v t vp fuel (pi + 1) else pi + 1

/-- `do --pj; while (LT(vp, v[*pj]));` — move `pj` back past keys above the
pivot (the median-of-three guarantee `v[*pl] ≤ vp` stops the scan). -/
def npScanDown (v : Array ℚ) (t : Array ℕ) (vp : ℚ) : ℕ → ℕ → ℕ
  | 0, pj => pj - 1
  | fuel + 1, pj =>
    if vp < npVal v t (pj - 1) then npScanDown v t vp fuel (pj - 1) else pj - 1

/-- The partition exchange loop: scan from both ends, swap the out-of-place
pair, stop when the cursors cross; returns the updated index array and the
crossing point `pi`. -/
def npPartitionLoop (v : Array ℚ) (vp : ℚ) : ℕ → Array ℕ → ℕ → ℕ → Array ℕ × ℕ
  | 0, t, pi, _ => (t, pi)
  | fuel + 1, t, pi, pj =>
    let pi2 := npScanUp v t vp (t.size + 1) pi
    let pj2 := npScanDown v t vp (t.size + 1) pj
    if pi2 ≥ pj2 then (t, pi2)
    else npPartitionLoop v vp fuel (npSwap t pi2 pj2) pi2 pj2

/-- The shift loop of the insertion sort: `while (pj > pl && LT(vp, v[*pk]))
*pj-- = *pk--;` — returns the shifted array and the insertion position. -/
def npInsShift (v : Array ℚ) (vp : ℚ) (pl : ℕ) : ℕ → Array ℕ → ℕ → Array ℕ × ℕ
  | 0, t, pj => (t, pj)
  | fuel + 1, t, pj =>
    if pj > pl && decide (vp < npVal v t (pj - 1)) then
      npInsShift v vp pl fuel (t.setD pj (t.getD (pj - 1) 0)) (pj - 1)
    else (t, pj)

/-- The insertion sort over segment `[pl, pr]` that introsort applies to
segments of at most `SMALL_QUICKSORT + 1 = 16` entries. -/
def npInsertionSortRange (v : Array ℚ) (t : Array ℕ) (pl pr : ℕ) : Array ℕ :=
  (List.range' (pl + 1) (pr + 1 - (pl + 1))).foldl
    (fun t pi =>
      let vi := t.getD pi 0
      let vp := v.getD vi 0
      let s := npInsShift v vp pl pi t pi
      s.1.setD s.2 vi) t

/-- The sift-down loop shared by both phases of `aheapsort_`, on the 1-based
view `a[k] = t[pl + k − 1]` of a heap of size `n`; `vtmp` is the key of the
entry being sifted.  Returns the array and the hole position `i`. -/
def npHeapSift (v : Array ℚ) (pl n : ℕ) (vtmp : ℚ) : ℕ → Array ℕ → ℕ → ℕ → Array ℕ × ℕ
  | 0, t, i, _ => (t, i)
  | fuel + 1, t, i, j =>
    if j ≤ n then
      let j := if j < n && decide (npVal v t (pl + j - 1) < npVal v t (pl + j)) then j + 1 else j
      if vtmp < npVal v t (pl + j - 1) then
        npHeapSift v pl n vtmp fuel (t.setD (pl + i - 1) (t.getD (pl + j - 1) 0)) j (j + j)
      else (t, i)
    else (t, i)

/-- The heap construction phase of `aheapsort_`: sift down from `l = n/2`
to `1`. -/
def npHeapBuild (v : Array ℚ) (pl n : ℕ) (t : Array ℕ) : Array ℕ :=
  (List.range (n / 2)).foldl
    (fun t k =>
      let l := n / 2 - k
      let tmp := t.getD (pl + l - 1) 0
      let s := npHeapSift v pl n (v.getD tmp 0) (n + 2) t l (2 * l)
      s.1.setD (pl + s.2 - 1) tmp) t

/-- The extraction phase of `aheapsort_`: swap the maximum to the end and
re-sift, shrinking the heap to size 1. -/
def npHeapExtract (v : Array ℚ) (pl : ℕ) : ℕ → Array ℕ → Array ℕ
  | 0, t => t
  | 1, t => t
  | n + 2, t =>
    let m := n + 2
    let tmp := t.getD (pl + m - 1) 0
    let t2 := t.setD (pl + m - 1) (t.getD pl 0)
    let s := npHeapSift v pl (m - 1) (v.getD tmp 0) (m + 2) t2 1 2
    npHeapExtract v pl (n + 1) (s.1.setD (pl + s.2 - 1) tmp)

/-- `aheapsort_` on segment `[pl, pl + n − 1]` — the introsort's fallback once
the partition depth budget is exhausted (unreachable at the sizes the
theorems evaluate, but part of the routine). -/
def npAheapsort (v : Array ℚ) (t : Array ℕ) (pl n : ℕ) : Array ℕ :=
  npHeapExtract v pl n (npHeapBuild v pl n t)

/-- The main introsort loop of `aquicksort_`: partition segments longer than
15 entries (median-of-three pivot, larger half pushed on the stack, depth
budget decremented each round, heapsort once it is spent), insertion-sort the
rest, pop the next segment until the stack empties. -/
def npQuicksortLoop (v : Array ℚ) :
    ℕ → Array ℕ → List (ℕ × ℕ) → ℕ → ℕ → ℤ → Array ℕ
  | 0, t, _, _, _, _ => t
  | fuel + 1, t, stack, pl, pr, depth =>
    if pr - pl > 15 then
      if depth < 0 then
        let t2 := npAheapsort v t pl (pr - pl + 1)
        match stack with
        | [] => t2
        | (pl2, pr2) :: rest => npQuicksortLoop v fuel t2 rest pl2 pr2 (depth - 1)
      else
        let pm := pl + (pr - pl) / 2
        let t1 := if npVal v t pm < npVal v t pl then npSwap t pm pl else t
        let t2 := if npVal v t1 pr < npVal v t1 pm then npSwap t1 pr pm else t1
        let t3 := if npVal v t2 pm < npVal v t2 pl then npSwap t2 pm pl else t2
        let vp := npVal v t3 pm
        let t4 := npSwap t3 pm (pr - 1)
        let s := npPartitionLoop v vp (t4.size + 1) t4 pl (pr - 1)
        let pi := s.2
        let t5 := npSwap s.1 pi (pr - 1)
        if pi - pl < pr - pi then
          npQuicksortLoop v fuel t5 ((pi + 1, pr) :: stack) pl (pi - 1) (depth - 1)
        else
          npQuicksortLoop v fuel t5 ((pl, pi - 1) :: stack) (pi + 1) pr (depth - 1)
    else
      let t2 := npInsertionSortRange v t pl pr
      match stack with
      | [] => t2
      | (pl2, pr2) :: rest => npQuicksortLoop v fuel t2 rest pl2 pr2 depth

/-- numpy's `argsort(kind='quicksort')` on a value array: permute the index
array `0, …, n−1` by `aquicksort_` with depth budget `2·⌊log₂ n⌋`. -/
def npAquicksort (v : Array ℚ) : Array ℕ :=
  if v.size = 0 then #[]
  else npQuicksortLoop v (4 * v.size + 64) (Array.range v.size) [] 0 (v.size - 1)
    (2 * (Nat.log2 v.size : ℤ))

instance : Inhabited DRecord := ⟨⟨"", "", 0, 0, none, ""⟩⟩

/-- The faithful model of `detail_df.sort_values(by='龙虎榜净买额',
ascending=False)` (lines 132, 157, 212): pandas' `nargsort` with
`ascending=False`, `na_position='last'` and the default `kind='quicksort'` —
reverse the non-NaN rows, argsort their keys ascending with numpy's introsort
(`npAquicksort`), reverse the result, and append the NaN rows in original
order. -/
def sort_values_desc_np (l : List DRecord) : List DRecord :=
  let rev := (l.filter fun r => r.netBuy.isSome).reverse
  let idx := npAquicksort ((rev.map fun r => r.netBuy.getD 0).toArray)
  (idx.toList.map fun i => rev.getD i default).reverse ++
    (l.filter fun r => r.netBuy.isNone)

/-- Line 132: `top1_stock = detail_df.sort_values(...).iloc[0]`, the first row
of the sorted frame (`.iloc[0]` raises on an empty frame; `head?` returns
`none` there, and the theorems only use it on non-empty input). -/
def top1_stock (l : List DRecordRaw) : Option DRecord :=
  (sort_values_desc (coerceNetBuy l)).head?

/-- Line 157: `detail_df.sort_values(...).head(10)` — the first ten rows of
the sorted frame, fewer when the frame is shorter. -/
def top10_df (l : List DRecordRaw) : List DRecord :=
  (sort_values_desc (coerceNetBuy l)).take 10

/-! ## AI commentary configuration (`main`, lines 185–204, 244–261) -/

/-- The `[openai]` section of `st.secrets`: required `api_key` and `base_url`,
optional `model`. -/
structure OpenAIConfig where
  api_key : String
  base_url : String
  model : Option String
deriving DecidableEq

/-- What the AI-analysis button handler does, abstracted from transport: either
it signals the missing-configuration error and stops (lines 194–204, before
any client is built), or it attempts one `chat.completions.create` call with
some model name and temperature. -/
inductive AIAction where
  | configError : AIAction
  | call (model : String) (temperature : ℚ) : AIAction
deriving DecidableEq

/-- Lines 185–261 of `main`, reduced to configuration handling: when the
`openai` secrets section is absent (or reading secrets raises), the handler
reports the configuration error and returns without calling; otherwise it
calls with `st.secrets["openai"].get("model", "gpt-3.5-turbo")` and
`temperature=0.7`. -/
def ai_analysis (secrets : Option OpenAIConfig) : AIAction :=
  match secrets with
  | none => .configError
  | some cfg => .call (cfg.model.getD "gpt-3.5-turbo") (7 / 10)

/-! ## Concrete sample inputs used by witnesses and counterexamples -/

/-- A sample disclosure row. -/
def sampleRow : DRecordRaw :=
  ⟨"000001", "平安银行", 12, 5, .numeric 250000000, "日涨幅偏离值达7%"⟩

/-- A sample branch row whose name carries the foreign-channel marker. -/
def sampleBranch : BRecord :=
  ⟨"沪股通专用", 120000000⟩

/-- A sample branch row whose name lacks the foreign-channel marker. -/
def samplePlainBranch : BRecord :=
  ⟨"国泰君安证券股份有限公司上海江苏路证券营业部", 500000000⟩

/-- The ranking example of the spec: net-buy values `[5, 100, -3, 100]` in
fetch order, with distinct codes so the two rows tied at `100` can be told
apart. -/
def exampleRows : List DRecordRaw :=
  [⟨"000001", "甲", 1, 1, .numeric 5, "r"⟩,
   ⟨"000002", "乙", 1, 2, .numeric 100, "r"⟩,
   ⟨"000003", "丙", 1, 3, .numeric (-3), "r"⟩,
   ⟨"000004", "丁", 1, 4, .numeric 100, "r"⟩]

/-- A numbered disclosure row with a given net-buy value, for bulk sample
data. -/
def mkRow (i : ℕ) (q : ℚ) : DRecordRaw :=
  ⟨"c" ++ toString i, "n" ++ toString i, 1, 1, .numeric q, "r"⟩

/-- Seventeen disclosure rows whose net-buy values are `[1, 1, 2, 3, …, 16]`
in fetch order: one tied pair at fetch positions 0 and 1 (codes `c0`, `c1`)
and fifteen distinct larger values — one row more than numpy's insertion-sort
cutoff, so the descending sort runs a real introsort partition. -/
def bigRaws : List DRecordRaw :=
  (List.range 17).map fun i => mkRow i (if i = 0 then 1 else (i : ℚ))

/-- Three rows over two distinct codes: the same stock listed under two
reasons, plus one other stock. -/
def dupRows : List DRecordRaw :=
  [⟨"000005", "戊", 2, 1, .numeric 7, "日涨幅偏离值达7%"⟩,
   ⟨"000005", "戊", 2, 1, .numeric 7, "换手率达20%"⟩,
   ⟨"000006", "己", 3, 1, .numeric 9, "r"⟩]

/-- A probe schedule for the resolver witness: an exception at offset 0, an
empty frame at offset 1, data at offset 2, and (never reached) data later. -/
def sampleProbe : ℕ → Fetch DRecordRaw
  | 0 => .error
  | 1 => .ok (some [])
  | 2 => .ok (some [sampleRow])
  | _ => .ok (some [sampleRow])

section Theorems

attribute [local semireducible] Rat.mul Rat.add Rat.sub Rat.inv

/-- Auxiliary: `find?` over `range' s n` returns the first index where the
predicate fires. -/
theorem find?_range'_first (p : ℕ → Bool) :
    ∀ (n s i : ℕ), i < n → (∀ j, j < i → p (s + j) = false) → p (s + i) = true →
      (List.range' s n).find? p = some (s + i) := by
  intro n
  induction n with
  | zero => omega
  | succ n ih =>
    intro s i hi hmiss hhit
    rw [List.range'_succ]
    cases i with
    | zero =>
      have hs : p s = true := by simpa using hhit
      rw [List.find?_cons_of_pos _ hs]
      simp
    | succ k =>
      have h0 : p s = false := by simpa using hmiss 0 (Nat.succ_pos k)
      rw [List.find?_cons_of_neg _ (by simp [h0])]
      have e1 : ∀ j : ℕ, s + 1 + j = s + (j + 1) := by omega
      have := ih (s + 1) k (by omega)
        (fun j hj => by rw [e1 j]; exact hmiss (j + 1) (by omega))
        (by rw [e1 k]; exact hhit)
      rw [this]
      congr 1
      omega

/-- C1: `find_latest_data` returns the date `today − i` of the first
(smallest-offset) candidate whose probe yields a non-`None`, non-empty result;
its result is fixed by the probe outcomes at offsets `0..i` alone, so older
dates never matter; errors and empty results at earlier offsets are misses;
and when all ten candidates miss it returns the not-found value. -/
theorem C1_resolver_first_hit (today : ℤ) (probe : ℕ → Fetch DRecordRaw) :
    (∀ i, i < 10 → (∀ j, j < i → probeHit (probe j) = false) →
      probeHit (probe i) = true →
      find_latest_data today probe = some (today - (i : ℤ))) ∧
    ((∀ j, j < 10 → probeHit (probe j) = false) →
      find_latest_data today probe = none) := by
  constructor
  · intro i hi hmiss hhit
    unfold find_latest_data
    rw [List.range_eq_range']
    rw [find?_range'_first _ 10 0 i hi (fun j hj => by simpa using hmiss j hj)
      (by simpa using hhit)]
    simp
  · intro hmiss
    unfold find_latest_data
    rw [List.find?_eq_none.mpr]
    · rfl
    · intro x hx
      rw [List.mem_range] at hx
      simp [hmiss x hx]

/-- C1 witness: with an error at offset 0, an empty frame at offset 1 and data
at offset 2, the resolver picks the offset-2 date; with all probes erroring it
returns the not-found value. -/
theorem C1_witness :
    find_latest_data 738000 sampleProbe = some 737998 ∧
    find_latest_data 738000 (fun _ => Fetch.error) = none := by
  constructor
  · have h := (C1_resolver_first_hit 738000 sampleProbe).1 2 (by decide)
      (fun j hj => by
        interval_cases j
        · decide
        · decide)
      (by decide)
    simpa using h
  · exact (C1_resolver_first_hit 738000 _).2 (fun j _ => rfl)

/-- C2 counterexample: the claim reads the unit thresholds as comparing the
magnitude, but `format_number` compares the signed value: at `−200,000,000`
(magnitude ≥ 10⁸) the output is not the hundred-million-unit rendering the
claim demands. -/
theorem C2_counterexample :
    format_number (some (-200000000)) ≠ twoDec ((-200000000 : ℚ) / 100000000) ++ "亿" := by
  decide

/-- C2 (amended): an absent input renders as `"0"`; a value `≥ 10⁸` (signed
comparison, not magnitude) renders as the value over 10⁸ with two decimals
plus `亿`; else a value `≥ 10⁴` renders over 10⁴ with two decimals plus `万`;
otherwise — including every negative value — the raw value renders with two
decimals and no unit. -/
theorem C2_format_number_signed (v : ℚ) :
    format_number none = "0" ∧
    (100000000 ≤ v → format_number (some v) = twoDec (v / 100000000) ++ "亿") ∧
    (10000 ≤ v → v < 100000000 →
      format_number (some v) = twoDec (v / 10000) ++ "万") ∧
    (v < 10000 → format_number (some v) = twoDec v) := by
  refine ⟨rfl, fun h => ?_, fun h h2 => ?_, fun h => ?_⟩
  · simp only [format_number]
    rw [if_pos (show v ≥ 100000000 from h)]
  · simp only [format_number]
    rw [if_neg (show ¬ v ≥ 100000000 from not_le.mpr h2),
      if_pos (show v ≥ 10000 from h)]
  · have h2 : v < 100000000 := lt_trans h (by norm_num)
    simp only [format_number]
    rw [if_neg (show ¬ v ≥ 100000000 from not_le.mpr h2),
      if_neg (show ¬ v ≥ 10000 from not_le.mpr h)]

/-- C2 witness: the three branches at `2·10⁸`, `5·10⁷` and `500`. -/
theorem C2_witness :
    format_number (some 200000000) = twoDec ((200000000 : ℚ) / 100000000) ++ "亿" ∧
    format_number (some 50000000) = twoDec ((50000000 : ℚ) / 10000) ++ "万" ∧
    format_number (some 500) = twoDec 500 :=
  ⟨(C2_format_number_signed 200000000).2.1 (by decide),
   (C2_format_number_signed 50000000).2.2.1 (by decide) (by decide),
   (C2_format_number_signed 500).2.2.2 (by decide)⟩

/-- C10: every negative value — whatever its magnitude — falls through both
unit thresholds (which compare the signed value) and is rendered raw with two
decimals and no unit suffix. -/
theorem C10_negative_never_abbreviated (v : ℚ) (hv : v < 0) :
    format_number (some v) = twoDec v := by
  have h8 : ¬ (100000000 : ℚ) ≤ v := not_le.mpr (lt_trans hv (by norm_num))
  have h4 : ¬ (10000 : ℚ) ≤ v := not_le.mpr (lt_trans hv (by norm_num))
  simp only [format_number]
  rw [if_neg (show ¬ v ≥ 100000000 from h8), if_neg (show ¬ v ≥ 10000 from h4)]

/-- C10 witness: `−5·10⁸`, of magnitude well above both thresholds, renders
raw (`"-500000000.00"`), not as `"-5.00亿"`. -/
theorem C10_witness :
    format_number (some (-500000000)) = twoDec (-500000000) ∧
    twoDec (-500000000 : ℚ) = "-500000000.00" :=
  ⟨C10_negative_never_abbreviated (-500000000) (by decide), by decide⟩

/-- C5: whenever the primary disclosure fetch raises, returns `None`, or
returns an empty frame, `get_lhb_data` is `(None, None, None)`; and whenever
its primary component is absent the other two are too, so no partial result
with only secondary data ever escapes. -/
theorem C5_primary_gate (jg : Fetch JRecord) (yyb : Fetch BRecord) :
    get_lhb_data .error jg yyb = (none, none, none) ∧
    get_lhb_data (.ok none) jg yyb = (none, none, none) ∧
    get_lhb_data (.ok (some [])) jg yyb = (none, none, none) ∧
    (∀ detail : Fetch DRecordRaw, (get_lhb_data detail jg yyb).1 = none →
      get_lhb_data detail jg yyb = (none, none, none)) := by
  refine ⟨rfl, rfl, rfl, ?_⟩
  intro detail h
  match detail with
  | .error => rfl
  | .ok none => rfl
  | .ok (some d) =>
    by_cases hd : d.isEmpty
    · simp [get_lhb_data, hd]
    · cases jg with
      | error => simp [get_lhb_data, hd]
      | ok j =>
        cases yyb with
        | error => simp [get_lhb_data, hd]
        | ok y => simp [get_lhb_data, hd] at h

/-- C5 witness: the no-partial-result clause applied to an erroring primary
fetch. -/
theorem C5_witness :
    get_lhb_data .error (.ok none) (.ok none) = (none, none, none) :=
  (C5_primary_gate (.ok none) (.ok none)).2.2.2 Fetch.error rfl

/-- C7: the foreign buy total is `0` for an absent or empty branch set, equals
the sum of the buy amounts of exactly the branches whose name contains the
`股通` marker, and a branch without the marker contributes nothing whatever
its buy amount. -/
theorem C7_foreign_total (b : BRecord) (hb : hasMarker b.name = false) :
    waizi_buy_total none = 0 ∧
    waizi_buy_total (some []) = 0 ∧
    (∀ l, waizi_buy_total (some l) =
      ((l.filter fun r => hasMarker r.name).map BRecord.buy).sum) ∧
    (∀ l, waizi_buy_total (some (b :: l)) = waizi_buy_total (some l)) := by
  refine ⟨rfl, rfl, fun l => ?_, fun l => ?_⟩
  · cases l with
    | nil => rfl
    | cons x xs => simp [waizi_buy_total]
  · cases l with
    | nil => simp [waizi_buy_total, List.filter_cons, hb]
    | cons x xs => simp [waizi_buy_total, List.filter_cons, hb]

/-- C7 witness: a `股通`-named branch is counted, a conventionally named one
with a large buy amount is not. -/
theorem C7_witness :
    waizi_buy_total (some [samplePlainBranch]) = waizi_buy_total (some []) ∧
    waizi_buy_total (some [sampleBranch, samplePlainBranch]) =
      (([sampleBranch, samplePlainBranch].filter fun r => hasMarker r.name).map
        BRecord.buy).sum :=
  ⟨(C7_foreign_total samplePlainBranch (by decide)).2.2.2 [],
   (C7_foreign_total samplePlainBranch (by decide)).2.2.1 _⟩

/-- C8: with the `openai` secrets section absent the handler reports the
configuration error and never reaches the chat-completion call; with
credentials present but no `model` entry the call uses the default
`gpt-3.5-turbo`. -/
theorem C8_ai_config (k b m : String) :
    ai_analysis none = .configError ∧
    ai_analysis (some ⟨k, b, none⟩) = .call "gpt-3.5-turbo" (7 / 10) ∧
    ai_analysis (some ⟨k, b, some m⟩) = .call m (7 / 10) :=
  ⟨rfl, rfl, rfl⟩

/-- C3 counterexample: the primary fetch succeeds non-empty, yet an exception
in the secondary institutional fetch propagates to the `except` clause and the
whole load comes back `(None, None, None)` — the disclosure records are lost,
contradicting the claim that a secondary failure never makes the load
unavailable. -/
theorem C3_counterexample :
    get_lhb_data (.ok (some [sampleRow])) .error (.ok (some [sampleBranch])) =
      (none, none, none) :=
  rfl

/-- C3 (amended): when the primary fetch succeeds non-empty and neither
secondary fetch raises, the load returns the disclosure records with the
secondary results passed through, and an absent or empty secondary set makes
its derived metric default to zero; but a raised error in either secondary
fetch is caught by the surrounding `try/except` and turns the whole load into
`(None, None, None)`. -/
theorem C3_secondary_degradation (d : List DRecordRaw) (j : Option (List JRecord))
    (y : Option (List BRecord)) (hd : d.isEmpty = false) :
    get_lhb_data (.ok (some d)) (.ok j) (.ok y) = (some d, j, y) ∧
    jg_buy_total none = 0 ∧
    jg_buy_total (some []) = 0 ∧
    waizi_buy_total none = 0 ∧
    waizi_buy_total (some []) = 0 ∧
    (∀ yyb : Fetch BRecord, get_lhb_data (.ok (some d)) .error yyb = (none, none, none)) ∧
    (∀ jg : Fetch JRecord, get_lhb_data (.ok (some d)) jg .error = (none, none, none)) := by
  refine ⟨?_, rfl, rfl, rfl, rfl, fun yyb => ?_, fun jg => ?_⟩
  · simp [get_lhb_data, hd]
  · simp [get_lhb_data, hd]
  · cases jg with
    | error => simp [get_lhb_data, hd]
    | ok jj => simp [get_lhb_data, hd]

/-- C3 witness: a non-empty primary with `None` institutional data and an
empty branch set still returns the disclosure records, and the institutional
metric is zero on the empty set. -/
theorem C3_witness :
    get_lhb_data (.ok (some [sampleRow])) (.ok none) (.ok (some [])) =
      (some [sampleRow], none, some []) ∧
    jg_buy_total (some []) = 0 :=
  ⟨(C3_secondary_degradation [sampleRow] none (some []) rfl).1,
   (C3_secondary_degradation [sampleRow] none (some []) rfl).2.2.1⟩

/-- `optLE` is reflexive. -/
theorem optLE_refl (a : Option ℚ) : optLE a a = true := by
  cases a with
  | none => rfl
  | some x => simp [optLE]

/-- Stability kernel: `orderedInsert` places a row in front of its own key
class and does not disturb the relative order of the rows carrying any fixed
key (every row it walks past has a strictly larger key, hence a different
one). -/
theorem filter_orderedInsert_key (k : Option ℚ) (a : DRecord) :
    ∀ s : List DRecord,
      (s.orderedInsert rowLE a).filter (fun r => decide (r.netBuy = k)) =
        if a.netBuy = k then a :: s.filter (fun r => decide (r.netBuy = k))
        else s.filter (fun r => decide (r.netBuy = k)) := by
  intro s
  induction s with
  | nil =>
    by_cases hk : a.netBuy = k <;>
      simp [List.orderedInsert, List.filter_cons, hk]
  | cons b t ih =>
    by_cases hab : rowLE a b
    · rw [List.orderedInsert_of_le rowLE t hab]
      by_cases hk : a.netBuy = k <;> simp [List.filter_cons, hk]
    · have hins : (b :: t).orderedInsert rowLE a = b :: t.orderedInsert rowLE a := by
        simp [List.orderedInsert, if_neg hab]
      rw [hins, List.filter_cons]
      by_cases hk : a.netBuy = k
      · have hbk : ¬ b.netBuy = k := by
          intro hb
          exact hab (show rowLE a b by unfold rowLE; rw [hk, hb]; exact optLE_refl k)
        simp [List.filter_cons, ih, hk, hbk]
      · simp [List.filter_cons, ih, hk]

/-- Stability: the stable ascending kernel does not disturb the relative
order of the rows carrying any fixed net-buy key. -/
theorem filter_insertionSort_key (k : Option ℚ) (l : List DRecord) :
    (List.insertionSort rowLE l).filter (fun r => decide (r.netBuy = k)) =
      l.filter (fun r => decide (r.netBuy = k)) := by
  induction l with
  | nil => rfl
  | cons a t ih =>
    simp only [List.insertionSort]
    rw [filter_orderedInsert_key]
    by_cases hk : a.netBuy = k <;> simp [List.filter_cons, hk, ih]

/-- Every row of the sorted non-NaN block of `sort_values_desc` has a present
net-buy key. -/
theorem mem_sorted_block_isSome (l : List DRecord) :
    ∀ r ∈ (List.insertionSort rowLE ((l.filter fun x => x.netBuy.isSome).reverse)).reverse,
      r.netBuy.isSome = true := by
  intro r hr
  simp only [List.mem_reverse, List.mem_insertionSort] at hr
  exact (List.mem_filter.mp hr).2

/-- The output of `sort_values_desc` is a permutation of its input: every
record, duplicates included, survives the sort. -/
theorem sort_values_desc_perm (l : List DRecord) : (sort_values_desc l).Perm l := by
  have h1 : ((List.insertionSort rowLE
      ((l.filter fun r => r.netBuy.isSome).reverse)).reverse).Perm
      (l.filter fun r => r.netBuy.isSome) :=
    ((List.reverse_perm _).trans (List.perm_insertionSort rowLE _)).trans
      (List.reverse_perm _)
  have h3 : (l.filter fun r => !r.netBuy.isSome) = l.filter fun r => r.netBuy.isNone := by
    apply List.filter_congr
    intro x _
    cases x.netBuy <;> rfl
  refine List.Perm.trans (h1.append (List.Perm.refl _)) ?_
  rw [← h3]
  exact List.filter_append_perm _ l

/-- The output of `sort_values_desc` is descending in the net-buy key, with
missing (NaN) keys at the very bottom. -/
theorem sort_values_desc_pairwise (l : List DRecord) :
    (sort_values_desc l).Pairwise fun a b => optLE b.netBuy a.netBuy = true := by
  have key : ∀ (a b : DRecord), b.netBuy.isNone = true → optLE b.netBuy a.netBuy = true := by
    intro a b hb
    rw [Option.isNone_iff_eq_none] at hb
    rw [hb]
    rfl
  unfold sort_values_desc
  rw [List.pairwise_append]
  refine ⟨?_, ?_, ?_⟩
  · rw [List.pairwise_reverse]
    exact List.sorted_insertionSort rowLE _
  · exact List.pairwise_of_forall_mem_list fun a _ b hb =>
      key a b (List.mem_filter.mp hb).2
  · intro a ha b hb
    exact key a b (List.mem_filter.mp hb).2

/-- The rows carrying any fixed net-buy key appear in `sort_values_desc`
exactly as they appear in the input: descending sort breaks ties by original
order. -/
theorem filter_key_sort_values_desc (l : List DRecord) (k : Option ℚ) :
    (sort_values_desc l).filter (fun r => decide (r.netBuy = k)) =
      l.filter (fun r => decide (r.netBuy = k)) := by
  unfold sort_values_desc
  rw [List.filter_append]
  cases k with
  | none =>
    have e1 : ((List.insertionSort rowLE
        ((l.filter fun r => r.netBuy.isSome).reverse)).reverse).filter
          (fun r => decide (r.netBuy = (none : Option ℚ))) = [] := by
      rw [List.filter_eq_nil_iff]
      intro a ha
      have hs := mem_sorted_block_isSome l a ha
      rw [Option.isSome_iff_exists] at hs
      rcases hs with ⟨q, hq⟩
      simp [hq]
    rw [e1, List.nil_append, List.filter_filter]
    apply List.filter_congr
    intro x _
    cases x.netBuy <;> simp
  | some q =>
    have e2 : (l.filter fun r => r.netBuy.isNone).filter
        (fun r => decide (r.netBuy = some q)) = [] := by
      rw [List.filter_eq_nil_iff]
      intro a ha
      have hn := (List.mem_filter.mp ha).2
      rw [Option.isNone_iff_eq_none] at hn
      simp [hn]
    rw [e2, List.append_nil, List.filter_reverse, filter_insertionSort_key,
      List.filter_reverse, List.reverse_reverse, List.filter_filter]
    apply List.filter_congr
    intro x _
    cases x.netBuy <;> simp

set_option maxRecDepth 40000 in
/-- C4 counterexample: seventeen rows put `sort_values` past numpy's
insertion-sort cutoff, and the introsort partition reverses the two rows tied
at net-buy 1 — the program emits the key-1 class as `[c1, c0]` where the
claim's stable tie-breaking demands the fetch order `[c0, c1]` (which the
stable idealization `sort_values_desc`, by `filter_key_sort_values_desc`,
would produce). -/
theorem C4_counterexample :
    ((sort_values_desc_np (coerceNetBuy bigRaws)).filter
        (fun r => decide (r.netBuy = some 1))).map DRecord.code = ["c1", "c0"] ∧
    ((coerceNetBuy bigRaws).filter
        (fun r => decide (r.netBuy = some 1))).map DRecord.code = ["c0", "c1"] ∧
    (sort_values_desc_np (coerceNetBuy bigRaws)).filter
        (fun r => decide (r.netBuy = some 1)) ≠
      (coerceNetBuy bigRaws).filter (fun r => decide (r.netBuy = some 1)) :=
  ⟨by decide, by decide, by decide⟩

set_option maxRecDepth 40000 in
/-- C4 (amended): the ranking sorts descending by the coerced net-buy key
with missing keys appended last, but the pandas default `kind='quicksort'`
kernel does not guarantee tie order once a frame exceeds numpy's
insertion-sort cutoff of 16 rows; within the cutoff the kernel is a stable
insertion sort, and in particular on the spec's example `[5, 100, −3, 100]`
the two records tied at 100 keep their original fetch order, the faithful
model there coinciding with the stable idealization. -/
theorem C4_ranking_quicksort (l : List DRecord) :
    (∃ pre, sort_values_desc_np l = pre ++ (l.filter fun r => r.netBuy.isNone)) ∧
    sort_values_desc_np (coerceNetBuy exampleRows) =
      [⟨"000002", "乙", 1, 2, some 100, "r"⟩,
       ⟨"000004", "丁", 1, 4, some 100, "r"⟩,
       ⟨"000001", "甲", 1, 1, some 5, "r"⟩,
       ⟨"000003", "丙", 1, 3, some (-3), "r"⟩] ∧
    sort_values_desc_np (coerceNetBuy exampleRows) =
      sort_values_desc (coerceNetBuy exampleRows) ∧
    ((sort_values_desc_np (coerceNetBuy bigRaws)).Pairwise fun a b =>
      optLE b.netBuy a.netBuy = true) ∧
    (sort_values_desc_np (coerceNetBuy bigRaws)).Perm (coerceNetBuy bigRaws) :=
  ⟨⟨_, rfl⟩, by decide, by decide, by decide, by decide⟩

/-- C6: the distinct-stock count deduplicates the codes before counting
(line 100), while the ranking pipeline (lines 132, 157) sorts and slices the
full record list — the sorted sequence is a permutation of all coerced
records and keeps the input length even when codes repeat, as the
two-reasons-one-stock example shows. -/
theorem C6_dedup_count_full_ranking (l : List DRecordRaw) :
    total_stocks l = (l.map DRecordRaw.code).toFinset.card ∧
    (sort_values_desc (coerceNetBuy l)).Perm (coerceNetBuy l) ∧
    (sort_values_desc (coerceNetBuy l)).length = l.length ∧
    top10_df l = (sort_values_desc (coerceNetBuy l)).take 10 ∧
    total_stocks dupRows = 2 ∧
    dupRows.length = 3 ∧
    (sort_values_desc (coerceNetBuy dupRows)).length = 3 := by
  refine ⟨?_, sort_values_desc_perm _, ?_, rfl, by decide, rfl, by decide⟩
  · rw [List.card_toFinset]
    rfl
  · rw [(sort_values_desc_perm (coerceNetBuy l)).length_eq]
    simp [coerceNetBuy]

/-- C9: `pd.to_numeric(..., errors='coerce')` sends numeric cells through and
non-numeric cells to missing; in the sorted output every missing-key record
sits behind all present-key records; the top entry is the head of the sorted
sequence (present for a non-empty record set, so `.iloc[0]` cannot fail); and
the top-10 slice is the first ten records, or all of them when fewer than ten
exist — never an error. -/
theorem C9_coerce_missing_bottom (l : List DRecordRaw) (h : l ≠ []) :
    (∀ q, to_numeric (.numeric q) = some q) ∧
    (∀ s, to_numeric (.nonNumeric s) = none) ∧
    (∃ pre, sort_values_desc (coerceNetBuy l) =
        pre ++ ((coerceNetBuy l).filter fun r => r.netBuy.isNone) ∧
        ∀ r ∈ pre, r.netBuy.isSome = true) ∧
    top1_stock l = (sort_values_desc (coerceNetBuy l)).head? ∧
    (top1_stock l).isSome = true ∧
    top10_df l = (sort_values_desc (coerceNetBuy l)).take 10 ∧
    (top10_df l).length = min 10 l.length := by
  have hlen : (sort_values_desc (coerceNetBuy l)).length = l.length := by
    rw [(sort_values_desc_perm (coerceNetBuy l)).length_eq]
    simp [coerceNetBuy]
  refine ⟨fun q => rfl, fun s => rfl, ?_, rfl, ?_, rfl, ?_⟩
  · exact ⟨_, rfl, mem_sorted_block_isSome (coerceNetBuy l)⟩
  · have hne : sort_values_desc (coerceNetBuy l) ≠ [] := by
      intro he
      have hl := hlen
      rw [he] at hl
      have h0 : l.length = 0 := by simpa using hl.symm
      exact h (List.eq_nil_of_length_eq_zero h0)
    unfold top1_stock
    exact List.head?_isSome.mpr hne
  · show ((sort_values_desc (coerceNetBuy l)).take 10).length = min 10 l.length
    rw [List.length_take, hlen]

/-- C9 witness: the seven clauses applied to the four-record example set. -/
theorem C9_witness :
    top1_stock exampleRows = (sort_values_desc (coerceNetBuy exampleRows)).head? ∧
    (top1_stock exampleRows).isSome = true ∧
    (top10_df exampleRows).length = min 10 exampleRows.length :=
  ⟨(C9_coerce_missing_bottom exampleRows (by decide)).2.2.2.1,
   (C9_coerce_missing_bottom exampleRows (by decide)).2.2.2.2.1,
   (C9_coerce_missing_bottom exampleRows (by decide)).2.2.2.2.2.2⟩

end Theorems

end Lhb
